import Mathlib

/-!
A verification development for the `prisma-ezfilter` query builder and
validator (`src/builders/queryBuilder.ts` and the validator module).

The TypeScript code is shallowly embedded: JSON-shaped runtime values become
the inductive type `JVal`, JS objects become association lists (entry order is
the iteration order of `Object.entries`), absent/`undefined` optional inputs
become `Option`, and the mutating `push`-loops of the source become structural
recursions that emit the pushed elements in the same order.  JS number
truthiness (`if (filter.page)`) is modelled as "present and nonzero"; JS string
truthiness (`if (filter.orderKey)`) as "present and nonempty".
-/

/-- A JSON-like runtime value: the dynamic `any` of the TypeScript source.
`null` also stands for JS `undefined` (the source treats the two alike). -/
inductive JVal where
  | null
  | bool (b : Bool)
  | num (n : Int)
  | str (s : String)
  | arr (vs : List JVal)
  | obj (fields : List (String × JVal))

/-- The `'asc' | 'desc'` union type of the source. -/
inductive OrderDirection where
  | asc
  | desc
deriving DecidableEq

/-- The string a direction renders to in the built query object. -/
def OrderDirection.str : OrderDirection → String
  | .asc => "asc"
  | .desc => "desc"

/-- The `'insensitive' | 'sensitive'` search-mode union type. -/
inductive SearchMode where
  | insensitive
  | sensitive
deriving DecidableEq

/-- The string a search mode renders to inside a `contains` leaf. -/
def SearchMode.str : SearchMode → String
  | .insensitive => "insensitive"
  | .sensitive => "sensitive"

/-- `RangedFilter` from the source: `{key, start, end}`. -/
structure RangedFilter where
  key : String
  start : JVal
  «end» : JVal

/-- `QuerySpecification` from the source (the fields the examined code reads). -/
structure QuerySpecification where
  allowedFields : Option (List String) := none
  forbiddenFields : Option (List String) := none
  allowedRelations : Option (List String) := none
  maxPageSize : Option Int := none
  defaultSearchMode : Option SearchMode := none

/-- `FilteringQuery` from the source; `none` is an absent optional property. -/
structure FilteringQuery where
  filters : Option (List (String × JVal)) := none
  searchFilters : Option (List (String × JVal)) := none
  rangedFilters : Option (List RangedFilter) := none
  orderKey : Option String := none
  orderRule : Option OrderDirection := none
  page : Option Int := none
  rows : Option Int := none

/-- `ValidationResult` from the source. -/
structure ValidationResult where
  isValid : Bool
  errors : List String
  warnings : List String
deriving DecidableEq

/-- `PrismaQueryOptions` as built by `buildFilterQuery`: the `where` object is
kept as a `JVal` so that the `AND`-list shape is a provable fact, not a type
ascription. -/
structure PrismaQueryOptions where
  «where» : JVal
  orderBy : JVal
  take : Int
  skip : Int

/-- Character-level test for a dot, embedding JS `key.includes('.')`. -/
def hasDotL : List Char → Bool
  | [] => false
  | c :: cs => if c = '.' then true else hasDotL cs

/-- `key.includes('.')` of the source. -/
def hasDot (s : String) : Bool := hasDotL s.data

/-- Worker for `splitDots`: `acc` is the reversed current segment. -/
def splitDotAux : List Char → List Char → List String
  | [], acc => [acc.reverse.asString]
  | c :: cs, acc => if c = '.' then acc.reverse.asString :: splitDotAux cs [] else splitDotAux cs (c :: acc)

/-- JS `key.split('.')`: the list of dot-separated segments, in order.
Never empty; a dotless string splits to the singleton of itself. -/
def splitDots (s : String) : List String := splitDotAux s.data []

/-- The right-to-left wrapping loop shared by all `buildNestedX` functions:
`for (let i = parts.length - 1; i >= 0; i--) current = ⟨parts[i]: current⟩`. -/
def wrapParts (parts : List String) (inner : JVal) : JVal :=
  List.foldr (fun s acc => JVal.obj [(s, acc)]) inner parts

/-- `buildNestedWhere` from the source: early return for a dotless key, else
pop the last segment, attach the value there, and fold the rest right-to-left. -/
def buildNestedWhere (key : String) (value : JVal) : JVal :=
  if hasDot key = false then JVal.obj [(key, value)]
  else
    let parts := splitDots key
    wrapParts parts.dropLast (JVal.obj [(parts.getLastD "", value)])

/-- The `⟨contains: value, mode: searchMode⟩` leaf object of the source. -/
def searchLeaf (value : JVal) (mode : SearchMode) : JVal :=
  JVal.obj [("contains", value), ("mode", JVal.str mode.str)]

/-- `buildNestedSearch` from the source. -/
def buildNestedSearch (key : String) (value : JVal) (mode : SearchMode) : JVal :=
  if hasDot key = false then JVal.obj [(key, searchLeaf value mode)]
  else
    let parts := splitDots key
    wrapParts parts.dropLast (JVal.obj [(parts.getLastD "", searchLeaf value mode)])

/-- The `⟨gte: start, lte: end⟩` leaf object of the source. -/
def rangeLeaf (r : RangedFilter) : JVal :=
  JVal.obj [("gte", r.start), ("lte", r.«end»)]

/-- `buildNestedRange` from the source (no dotless early return: its caller
only invokes it on dotted keys, but the fold handles one segment as well). -/
def buildNestedRange (r : RangedFilter) : JVal :=
  let parts := splitDots r.key
  wrapParts parts.dropLast (JVal.obj [(parts.getLastD "", rangeLeaf r)])

/-- `buildNestedOrderBy` from the source. -/
def buildNestedOrderBy (orderKey : String) (orderRule : OrderDirection) : JVal :=
  if hasDot orderKey = false then JVal.obj [(orderKey, JVal.str orderRule.str)]
  else
    let parts := splitDots orderKey
    wrapParts parts.dropLast (JVal.obj [(parts.getLastD "", JVal.str orderRule.str)])

/-- `buildWhereQuery` from the source: one pass over the filter entries, null
and undefined values skipped; array values become one OR-group, other values a
single condition, with dotted keys routed through `buildNestedWhere`. -/
def buildWhereQuery : List (String × JVal) → List JVal
  | [] => []
  | (key, value) :: rest =>
    match value with
    | JVal.null => buildWhereQuery rest
    | JVal.arr vs =>
      (if hasDot key then
        JVal.obj [("OR", JVal.arr (vs.map (fun v => buildNestedWhere key v)))]
      else
        JVal.obj [("OR", JVal.arr (vs.map (fun v => JVal.obj [(key, v)])))]) :: buildWhereQuery rest
    | v =>
      (if hasDot key then buildNestedWhere key v
       else JVal.obj [(key, v)]) :: buildWhereQuery rest

/-- `specification?.defaultSearchMode || 'insensitive'` from the source. -/
def resolvedSearchMode (specification : Option QuerySpecification) : SearchMode :=
  (specification.bind QuerySpecification.defaultSearchMode).getD SearchMode.insensitive

/-- The body of the `buildSearchQuery` loop for one non-null entry. -/
def searchCondition (key : String) (value : JVal) (mode : SearchMode) : JVal :=
  if hasDot key then buildNestedSearch key value mode
  else JVal.obj [(key, searchLeaf value mode)]

/-- The per-entry conditions collected by the `buildSearchQuery` loop, in
entry order, with null and undefined values skipped. -/
def searchConds : List (String × JVal) → Option QuerySpecification → List JVal
  | [], _ => []
  | (key, value) :: rest, specification =>
    match value with
    | JVal.null => searchConds rest specification
    | v => searchCondition key v (resolvedSearchMode specification) :: searchConds rest specification

/-- `buildSearchQuery` from the source: `isMultiKey` counts all keys of the
search-filter object (null-valued ones included); with several keys the
collected conditions go into one OR-group, emitted only when nonempty. -/
def buildSearchQuery (searchFilters : List (String × JVal))
    (specification : Option QuerySpecification) : List JVal :=
  let isMultiKey := searchFilters.length > 1
  let conds := searchConds searchFilters specification
  if isMultiKey then
    if conds.isEmpty then [] else [JVal.obj [("OR", JVal.arr conds)]]
  else conds

/-- `buildRangedFilter` from the source. -/
def buildRangedFilter : List RangedFilter → List JVal
  | [] => []
  | r :: rest =>
    (if hasDot r.key then buildNestedRange r
     else JVal.obj [(r.key, rangeLeaf r)]) :: buildRangedFilter rest

/-- `buildPagination` from the source, returning `(take, skip)`.  The JS
truthiness guards `if (filter.page)` / `if (filter.rows)` are "present and
nonzero". -/
def buildPagination (filter : FilteringQuery) : Int × Int :=
  match filter.page with
  | some p =>
    if p ≠ 0 then
      match filter.rows with
      | some r => if r ≠ 0 then (r, (p - 1) * r) else (10, 10 * (p - 1))
      | none => (10, 10 * (p - 1))
    else (10, 0)
  | none => (10, 0)

/-- `buildFilterQuery` from the source: conditions of the three stages are
appended to the `AND` list in order; `orderBy` defaults to the empty object,
`take` to 10 and `skip` to 0. -/
def buildFilterQuery (filter : FilteringQuery)
    (specification : Option QuerySpecification) : PrismaQueryOptions :=
  let and1 : List JVal := match filter.filters with
    | some fs => buildWhereQuery fs
    | none => []
  let and2 := and1 ++ (match filter.searchFilters with
    | some sf => buildSearchQuery sf specification
    | none => [])
  let and3 := and2 ++ (match filter.rangedFilters with
    | some rs => buildRangedFilter rs
    | none => [])
  let orderBy := match filter.orderKey with
    | some k =>
      if k.isEmpty then JVal.obj []
      else buildNestedOrderBy k (filter.orderRule.getD OrderDirection.asc)
    | none => JVal.obj []
  let ts := buildPagination filter
  { «where» := JVal.obj [("AND", JVal.arr and3)],
    orderBy := orderBy,
    take := ts.1,
    skip := ts.2 }

/-- Spec-side shape of a folded condition (section 3 of the spec): the keys
from outermost to innermost are the path's segments in order, with the leaf
condition at the deepest level, and no wrapping for a single segment. -/
def specNest : List String → JVal → JVal
  | [], leaf => leaf
  | s :: rest, leaf => JVal.obj [(s, specNest rest leaf)]

/-- Top-level keys of a condition object. -/
def topKeys : JVal → List String
  | JVal.obj fields => fields.map Prod.fst
  | _ => []

/-- One-or-more digits followed by a final `Z` and nothing else. -/
def digitsThenZ : List Char → Bool
  | [] => false
  | ['Z'] => true
  | c :: cs => c.isDigit && digitsThenZ cs

/-- The regex `^\d(4)-\d(2)-\d(2)T\d(2):\d(2):\d(2)(\.\d+)?Z$` of the
source's `isValidDate`, matched character by character. -/
def isIsoUtc (s : String) : Bool :=
  match s.data with
  | y1 :: y2 :: y3 :: y4 :: '-' :: m1 :: m2 :: '-' :: d1 :: d2 :: 'T' ::
      h1 :: h2 :: ':' :: n1 :: n2 :: ':' :: s1 :: s2 :: rest =>
    ([y1, y2, y3, y4, m1, m2, d1, d2, h1, h2, n1, n2, s1, s2].all Char.isDigit) &&
      (match rest with
       | ['Z'] => true
       | '.' :: c :: cs => c.isDigit && digitsThenZ cs
       | _ => false)
  | _ => false

/-- `isValidDate` from the source: a string value matching the ISO pattern. -/
def isValidDate : JVal → Bool
  | JVal.str s => isIsoUtc s
  | _ => false

/-- Numeric value of a digit character. -/
def digitVal (c : Char) : Nat := c.toNat - 48

/-- Decimal reading of a digit list. -/
def natOfDigits (cs : List Char) : Nat := cs.foldl (fun a c => 10 * a + digitVal c) 0

/-- The parsed components of an ISO-pattern timestamp. -/
structure IsoParts where
  year : Nat
  month : Nat
  day : Nat
  hour : Nat
  minute : Nat
  second : Nat
  frac : List Char
deriving DecidableEq

/-- Read the components out of a string of the ISO pattern (positions are
fixed by the pattern; only pattern-matching strings are ever parsed). -/
def parseIso (s : String) : Option IsoParts :=
  match s.data with
  | y1 :: y2 :: y3 :: y4 :: '-' :: m1 :: m2 :: '-' :: d1 :: d2 :: 'T' ::
      h1 :: h2 :: ':' :: n1 :: n2 :: ':' :: s1 :: s2 :: rest =>
    let frac? : Option (List Char) := match rest with
      | ['Z'] => some []
      | '.' :: cs => some cs.dropLast
      | _ => none
    frac?.map (fun f =>
      { year := natOfDigits [y1, y2, y3, y4],
        month := natOfDigits [m1, m2],
        day := natOfDigits [d1, d2],
        hour := natOfDigits [h1, h2],
        minute := natOfDigits [n1, n2],
        second := natOfDigits [s1, s2],
        frac := f })
  | _ => none

/-- The milliseconds a JS engine reads from a second fraction: the first
three digits, right-padded with zeros — digits beyond the third are
truncated, not rounded, because `Date` stores integer milliseconds. -/
def msOfFrac (frac : List Char) : Nat :=
  natOfDigits (frac.take 3 ++ List.replicate (3 - (frac.take 3).length) '0')

/-- Proleptic-Gregorian day number of `(y, m, d)` relative to 1970-01-01: the
civil-from-fields arithmetic behind `MakeDay`.  It is linear in `d`, so an
overflowing day-of-month carries into the following months exactly as
`new Date` normalizes it (`2023-02-31` lands on `2023-03-03`).  The year is
shifted by one full 400-year cycle (146097 days) so the intermediate
arithmetic stays in `Nat`. -/
def daysFromCivil (y m d : Nat) : Int :=
  let ys := y + 400
  let y' := if m ≤ 2 then ys - 1 else ys
  let era := y' / 400
  let yoe := y' - era * 400
  let mp := if 2 < m then m - 3 else m + 9
  let doy := (153 * mp + 2) / 5 + (d - 1)
  let doe := yoe * 365 + yoe / 4 - yoe / 100 + doy
  ((era * 146097 + doe : Nat) : Int) - (719468 + 146097)

/-- The time value `new Date` assigns to a pattern-matching string, with
`none` for `Invalid Date`: fields outside the Date Time String Format ranges
(month not 01-12, day not 01-31, minute or second above 59, hour above 24, or
hour 24 with a nonzero time-of-day remainder) do not parse; in-range fields
combine into epoch milliseconds, `MakeDay` carrying day-of-month overflow. -/
def jsTimeValue (p : IsoParts) : Option Int :=
  if 1 ≤ p.month ∧ p.month ≤ 12 ∧ 1 ≤ p.day ∧ p.day ≤ 31
      ∧ (p.hour ≤ 23 ∨ (p.hour = 24 ∧ p.minute = 0 ∧ p.second = 0 ∧ msOfFrac p.frac = 0))
      ∧ p.minute ≤ 59 ∧ p.second ≤ 59 then
    some (daysFromCivil p.year p.month p.day * 86400000
      + ((p.hour * 3600000 + p.minute * 60000 + p.second * 1000 + msOfFrac p.frac : Nat) : Int))
  else none

/-- Embedding of `new Date(a) > new Date(b)` for the pattern-matching strings
the source compares: both strings yield time values and the first is strictly
larger; any comparison involving `Invalid Date` is false. -/
def isoAfter (a b : String) : Bool :=
  match parseIso a, parseIso b with
  | some pa, some pb =>
    match jsTimeValue pa, jsTimeValue pb with
    | some ta, some tb => decide (tb < ta)
    | _, _ => false
  | _, _ => false

/-- The date-ordering check of `validateRangedFilters`: an error exactly when
both bounds are ISO-pattern strings and the start parses after the end. -/
def rangeDateError (r : RangedFilter) : List String :=
  match r.start, r.«end» with
  | JVal.str a, JVal.str b =>
    if isIsoUtc a && isIsoUtc b && isoAfter a b then
      ["Range start date '" ++ a ++ "' is after end date '" ++ b ++ "'"]
    else []
  | _, _ => []

/-- The first-violation scan of `validateMultiLevelRelation`: walk segments in
order; the first one missing from the allow-list yields the single error and
the loop breaks. -/
def firstBadRelation (allowedRelations : List String) (field : String) : List String → List String
  | [] => []
  | seg :: rest =>
    if allowedRelations.contains seg then firstBadRelation allowedRelations field rest
    else ["Relation '" ++ seg ++ "' in field '" ++ field ++ "' is not allowed"]

/-- `validateMultiLevelRelation` from the source: nothing without an
`allowedRelations` list; otherwise scan the non-terminal path segments. -/
def validateMultiLevelRelation (field : String) (specification : QuerySpecification) : List String :=
  match specification.allowedRelations with
  | none => []
  | some ar => firstBadRelation ar field (splitDots field).dropLast

/-- The relation-legality errors a field contributes: dotted fields are routed
through `validateMultiLevelRelation`, dotless ones contribute nothing. -/
def relationErrors (field : String) (specification : QuerySpecification) : List String :=
  if hasDot field then validateMultiLevelRelation field specification else []

/-- `validateFilters` from the source, returning `(errors, warnings)` in push
order: per non-null entry, the allowed/forbidden check first, then the
relation check. -/
def validateFilters : List (String × JVal) → QuerySpecification → List String × List String
  | [], _ => ([], [])
  | (field, value) :: rest, specification =>
    let tail := validateFilters rest specification
    match value with
    | JVal.null => tail
    | _ =>
      let allowRes : List String × List String := match specification.allowedFields with
        | some af =>
          if af.contains field then ([], [])
          else if (match specification.forbiddenFields with
                   | some ff => ff.contains field
                   | none => false) then
            (["Field '" ++ field ++ "' is forbidden"], [])
          else ([], ["Field '" ++ field ++ "' is not in allowed fields list"])
        | none => ([], [])
      (allowRes.1 ++ relationErrors field specification ++ tail.1, allowRes.2 ++ tail.2)

/-- `validateSearchFilters` from the source: an allow-list miss is only ever a
warning here; errors can come only from the relation check. -/
def validateSearchFilters : List (String × JVal) → QuerySpecification → List String × List String
  | [], _ => ([], [])
  | (field, value) :: rest, specification =>
    let tail := validateSearchFilters rest specification
    match value with
    | JVal.null => tail
    | _ =>
      let ws : List String := match specification.allowedFields with
        | some af =>
          if af.contains field then []
          else ["Search field '" ++ field ++ "' is not in allowed fields list"]
        | none => []
      (relationErrors field specification ++ tail.1, ws ++ tail.2)

/-- `validateRangedFilters` from the source: per range an allow-list warning,
then relation errors, then the date-ordering check. -/
def validateRangedFilters : List RangedFilter → QuerySpecification → List String × List String
  | [], _ => ([], [])
  | r :: rest, specification =>
    let tail := validateRangedFilters rest specification
    let ws : List String := match specification.allowedFields with
      | some af =>
        if af.contains r.key then []
        else ["Range field '" ++ r.key ++ "' is not in allowed fields list"]
      | none => []
    (relationErrors r.key specification ++ rangeDateError r ++ tail.1, ws ++ tail.2)

/-- `validateOrderKey` from the source. -/
def validateOrderKey (orderKey : String) (specification : QuerySpecification) : List String × List String :=
  let ws : List String := match specification.allowedFields with
    | some af =>
      if af.contains orderKey then []
      else ["Order field '" ++ orderKey ++ "' is not in allowed fields list"]
    | none => []
  (relationErrors orderKey specification, ws)

/-- `validatePagination` from the source: `page !== undefined` and
`rows !== undefined` guards, and the JS-truthy `maxPageSize &&` guard. -/
def validatePagination (query : FilteringQuery) (specification : QuerySpecification) : List String :=
  (match query.page with
   | some p => if p < 1 then ["Page number must be greater than 0"] else []
   | none => []) ++
  (match query.rows with
   | some r =>
     if r < 1 then ["Rows per page must be greater than 0"]
     else
       match specification.maxPageSize with
       | some m => if m ≠ 0 ∧ m < r then ["Rows per page cannot exceed " ++ toString m] else []
       | none => []
   | none => [])

/-- `validateQuery` from the source: immediate success without a
specification; otherwise the five checks run in order and their pushes are
concatenated, with validity exactly "no errors". -/
def validateQuery (query : FilteringQuery) (specification : Option QuerySpecification) : ValidationResult :=
  match specification with
  | none => { isValid := true, errors := [], warnings := [] }
  | some spec =>
    let r1 := match query.filters with
      | some fs => validateFilters fs spec
      | none => (([] : List String), ([] : List String))
    let r2 := match query.searchFilters with
      | some sf => validateSearchFilters sf spec
      | none => ([], [])
    let r3 := match query.rangedFilters with
      | some rs => validateRangedFilters rs spec
      | none => ([], [])
    let r4 := match query.orderKey with
      | some k => if k.isEmpty then ([], []) else validateOrderKey k spec
      | none => ([], [])
    let e5 := validatePagination query spec
    let errors := r1.1 ++ r2.1 ++ r3.1 ++ r4.1 ++ e5
    { isValid := errors.isEmpty,
      errors := errors,
      warnings := r1.2 ++ r2.2 ++ r3.2 ++ r4.2 }

/-! ### Path splitting and folding -/

/-- Splitting never yields an empty segment list. -/
theorem splitDotAux_ne_nil (cs acc) : splitDotAux cs acc ≠ [] := by
  induction cs generalizing acc with
  | nil => simp [splitDotAux]
  | cons c cs ih =>
    simp only [splitDotAux]
    split
    · simp
    · exact ih _

/-- `splitDots` never yields an empty segment list. -/
theorem splitDots_ne_nil (s : String) : splitDots s ≠ [] := splitDotAux_ne_nil _ _

/-- With no dot left to read, the worker closes the pending segment. -/
theorem splitDotAux_no_dot (cs acc) (h : hasDotL cs = false) :
    splitDotAux cs acc = [(acc.reverse ++ cs).asString] := by
  induction cs generalizing acc with
  | nil => simp [splitDotAux]
  | cons c cs ih =>
    simp only [hasDotL] at h
    split at h
    · cases h
    · rename_i hc
      simp only [splitDotAux, if_neg hc]
      rw [ih _ h]
      simp

/-- A dotless path splits to the singleton of itself. -/
theorem splitDots_of_no_dot (s : String) (h : hasDot s = false) : splitDots s = [s] := by
  unfold splitDots
  rw [splitDotAux_no_dot _ _ h]
  simp only [List.reverse_nil, List.nil_append]
  rfl

/-- The worker produces one more segment than there are dots to read. -/
theorem splitDotAux_length (cs acc) : (splitDotAux cs acc).length = cs.count '.' + 1 := by
  induction cs generalizing acc with
  | nil => simp [splitDotAux]
  | cons c cs ih =>
    simp only [splitDotAux]
    split
    · rename_i hc
      subst hc
      simp only [List.length_cons, ih]
      simp [List.count_cons]
    · rename_i hc
      rw [ih]
      have hne : ¬('.' : Char) = c := fun h => hc h.symm
      simp [List.count_cons, hne]

/-- A path with `k` dots splits into `k + 1` segments. -/
theorem splitDots_length (s : String) : (splitDots s).length = s.data.count '.' + 1 :=
  splitDotAux_length _ _

/-- The pop-then-fold of the source equals the spec-side nesting, for any
nonempty segment list and any pop fallback. -/
theorem wrapParts_getLastD (parts : List String) :
    ∀ (d : String) (v : JVal), parts ≠ [] →
      wrapParts parts.dropLast (JVal.obj [(parts.getLastD d, v)]) = specNest parts v := by
  induction parts with
  | nil => intro d v h; exact absurd rfl h
  | cons a rest ih =>
    intro d v _
    cases rest with
    | nil => rfl
    | cons b rest' =>
      rw [List.getLastD_cons]
      show JVal.obj [(a, wrapParts (b :: rest').dropLast (JVal.obj [((b :: rest').getLastD a, v)]))]
        = specNest (a :: b :: rest') v
      rw [ih a v (by simp)]
      rfl

/-- `buildNestedWhere` realises the spec-side nesting of the split path. -/
theorem buildNestedWhere_eq_specNest (key : String) (v : JVal) :
    buildNestedWhere key v = specNest (splitDots key) v := by
  by_cases h : hasDot key = false
  · simp only [buildNestedWhere, if_pos h, splitDots_of_no_dot key h]
    rfl
  · simp only [buildNestedWhere, if_neg h]
    exact wrapParts_getLastD _ "" v (splitDots_ne_nil key)

/-- `buildNestedSearch` realises the spec-side nesting of the split path. -/
theorem buildNestedSearch_eq_specNest (key : String) (v : JVal) (mode : SearchMode) :
    buildNestedSearch key v mode = specNest (splitDots key) (searchLeaf v mode) := by
  by_cases h : hasDot key = false
  · simp only [buildNestedSearch, if_pos h, splitDots_of_no_dot key h]
    rfl
  · simp only [buildNestedSearch, if_neg h]
    exact wrapParts_getLastD _ "" _ (splitDots_ne_nil key)

/-- `buildNestedRange` realises the spec-side nesting of the split path. -/
theorem buildNestedRange_eq_specNest (r : RangedFilter) :
    buildNestedRange r = specNest (splitDots r.key) (rangeLeaf r) :=
  wrapParts_getLastD _ "" _ (splitDots_ne_nil r.key)

/-- `buildNestedOrderBy` realises the spec-side nesting of the split path. -/
theorem buildNestedOrderBy_eq_specNest (key : String) (d : OrderDirection) :
    buildNestedOrderBy key d = specNest (splitDots key) (JVal.str d.str) := by
  by_cases h : hasDot key = false
  · simp only [buildNestedOrderBy, if_pos h, splitDots_of_no_dot key h]
    rfl
  · simp only [buildNestedOrderBy, if_neg h]
    exact wrapParts_getLastD _ "" _ (splitDots_ne_nil key)

/-- C1: for every non-empty field path, the nested fold used by the builder —
for equality leaves, OR-array members, search leaves, range leaves and the
order direction — returns the mapping whose keys from outermost to innermost
are the path's segments in left-to-right order with the leaf condition at the
deepest level (`specNest` of the split path); the split has `k + 1` segments
for a path with `k` dots, and a dotless path yields the leaf attached directly
with no wrapping. -/
theorem nested_fold_matches_path_segments (key : String) (v : JVal) (mode : SearchMode)
    (r : RangedFilter) (d : OrderDirection) (_hk : key ≠ "") :
    buildNestedWhere key v = specNest (splitDots key) v
    ∧ buildNestedSearch key v mode = specNest (splitDots key) (searchLeaf v mode)
    ∧ buildNestedRange r = specNest (splitDots r.key) (rangeLeaf r)
    ∧ buildNestedOrderBy key d = specNest (splitDots key) (JVal.str d.str)
    ∧ (splitDots key).length = key.data.count '.' + 1
    ∧ (hasDot key = false → buildNestedWhere key v = JVal.obj [(key, v)]) := by
  refine ⟨buildNestedWhere_eq_specNest key v, buildNestedSearch_eq_specNest key v mode,
    buildNestedRange_eq_specNest r, buildNestedOrderBy_eq_specNest key d,
    splitDots_length key, fun h => ?_⟩
  rw [buildNestedWhere_eq_specNest key v, splitDots_of_no_dot key h]
  rfl

/-- C1 witness: the fold at path `a.b.c` with an equality leaf. -/
theorem nested_fold_matches_path_segments_witness :
    ("a.b.c" : String) ≠ ""
    ∧ buildNestedWhere "a.b.c" (JVal.num 5) = specNest (splitDots "a.b.c") (JVal.num 5)
    ∧ buildNestedWhere "a.b.c" (JVal.num 5)
      = JVal.obj [("a", JVal.obj [("b", JVal.obj [("c", JVal.num 5)])])] :=
  ⟨by decide,
   (nested_fold_matches_path_segments "a.b.c" (JVal.num 5) SearchMode.insensitive
     ⟨"d", JVal.null, JVal.null⟩ OrderDirection.asc (by decide)).1,
   rfl⟩

/-! ### Equality filters (buildWhereQuery) -/

/-- The condition built for one non-null, non-array filter entry equals the
spec-side nesting, whether the key is dotted or not. -/
theorem where_entry_eq_specNest (key : String) (v : JVal) :
    (if hasDot key then buildNestedWhere key v else JVal.obj [(key, v)])
      = specNest (splitDots key) v := by
  cases h : hasDot key with
  | true =>
    rw [if_pos (by simp [h])]
    exact buildNestedWhere_eq_specNest key v
  | false =>
    rw [if_neg (by simp [h]), splitDots_of_no_dot key h]
    rfl

/-- A null-valued filter entry is skipped. -/
theorem buildWhereQuery_null (key : String) (rest : List (String × JVal)) :
    buildWhereQuery ((key, JVal.null) :: rest) = buildWhereQuery rest := rfl

/-- An array-valued filter entry contributes exactly one OR-group whose
members are the independently folded elements, in element order. -/
theorem buildWhereQuery_arr (key : String) (vs : List JVal) (rest : List (String × JVal)) :
    buildWhereQuery ((key, JVal.arr vs) :: rest)
      = JVal.obj [("OR", JVal.arr (vs.map (fun u => specNest (splitDots key) u)))]
          :: buildWhereQuery rest := by
  simp only [buildWhereQuery]
  cases h : hasDot key with
  | true =>
    rw [if_pos (by simp [h])]
    have : vs.map (fun u => buildNestedWhere key u) = vs.map (fun u => specNest (splitDots key) u) :=
      List.map_congr_left (fun u _ => buildNestedWhere_eq_specNest key u)
    rw [this]
  | false =>
    rw [if_neg (by simp [h])]
    have : vs.map (fun u => JVal.obj [(key, u)]) = vs.map (fun u => specNest (splitDots key) u) := by
      refine List.map_congr_left (fun u _ => ?_)
      rw [splitDots_of_no_dot key h]
      rfl
    rw [this]

/-- A scalar (non-null, non-array) filter entry contributes the single folded
condition directly. -/
theorem buildWhereQuery_scalar (key : String) (v : JVal) (rest : List (String × JVal))
    (hv : v ≠ JVal.null) (hs : ∀ us, v ≠ JVal.arr us) :
    buildWhereQuery ((key, v) :: rest) = specNest (splitDots key) v :: buildWhereQuery rest := by
  cases v with
  | null => exact absurd rfl hv
  | arr us => exact absurd rfl (hs us)
  | bool b => simp only [buildWhereQuery]; rw [where_entry_eq_specNest]
  | num n => simp only [buildWhereQuery]; rw [where_entry_eq_specNest]
  | str s => simp only [buildWhereQuery]; rw [where_entry_eq_specNest]
  | obj fields => simp only [buildWhereQuery]; rw [where_entry_eq_specNest]

/-- C2 counterexample: a scalar filter at a field literally named `OR` yields
the condition `(OR : 5)`, whose top-level key is `OR` — so "no OR key
appearing in that condition" fails as universally stated. -/
theorem scalar_filter_or_key_counterexample :
    buildWhereQuery [("OR", JVal.num 5)] = [JVal.obj [("OR", JVal.num 5)]]
    ∧ "OR" ∈ topKeys (JVal.obj [("OR", JVal.num 5)]) :=
  ⟨rfl, by simp [topKeys]⟩

/-- C2 (amended): a non-null array filter entry appends exactly one OR-group
with one independently folded member per element in order; a scalar entry
appends the single folded condition directly, whose only top-level key is the
path's first segment — so no OR key appears in it provided that first segment
is not itself named `OR`. -/
theorem filters_array_or_group_scalar_direct (key : String) (vs : List JVal) (v : JVal)
    (rest : List (String × JVal)) (hv : v ≠ JVal.null) (hs : ∀ us, v ≠ JVal.arr us) :
    buildWhereQuery ((key, JVal.arr vs) :: rest)
      = JVal.obj [("OR", JVal.arr (vs.map (fun u => specNest (splitDots key) u)))]
          :: buildWhereQuery rest
    ∧ buildWhereQuery ((key, v) :: rest) = specNest (splitDots key) v :: buildWhereQuery rest
    ∧ (∀ h t, splitDots key = h :: t →
        topKeys (specNest (splitDots key) v) = [h]
        ∧ (h ≠ "OR" → "OR" ∉ topKeys (specNest (splitDots key) v))) := by
  refine ⟨buildWhereQuery_arr key vs rest, buildWhereQuery_scalar key v rest hv hs, ?_⟩
  intro h t hsplit
  rw [hsplit]
  refine ⟨rfl, fun hne => ?_⟩
  have hne' : ¬("OR" : String) = h := fun hh => hne hh.symm
  simp [specNest, topKeys, hne']

/-- C2 witness: a two-element array filter and a scalar filter on a dotted path. -/
theorem filters_array_or_group_scalar_direct_witness :
    (JVal.num 7 ≠ JVal.null)
    ∧ buildWhereQuery [("category", JVal.arr [JVal.str "tech", JVal.str "biz"])]
        = JVal.obj [("OR", JVal.arr
            [JVal.obj [("category", JVal.str "tech")], JVal.obj [("category", JVal.str "biz")]])]
            :: buildWhereQuery []
    ∧ buildWhereQuery [("a.b", JVal.num 7)]
        = specNest (splitDots "a.b") (JVal.num 7) :: buildWhereQuery [] :=
  ⟨fun h => JVal.noConfusion h,
   (filters_array_or_group_scalar_direct "category" [JVal.str "tech", JVal.str "biz"]
      (JVal.num 7) [] (fun h => JVal.noConfusion h) (fun _ h => JVal.noConfusion h)).1,
   (filters_array_or_group_scalar_direct "a.b" [] (JVal.num 7) []
      (fun h => JVal.noConfusion h) (fun _ h => JVal.noConfusion h)).2.1⟩

/-! ### Defaults and overall shape (buildFilterQuery) -/

/-- C10: the empty request builds to exactly
`(where := (AND := ()), orderBy := (), take := 10, skip := 0)`; for every
request the built `where` object is the single key `AND` holding a list, and
`orderBy` is the empty object whenever `orderKey` is absent. -/
theorem empty_request_defaults (q : FilteringQuery) (spec : Option QuerySpecification) :
    buildFilterQuery {} none
      = { «where» := JVal.obj [("AND", JVal.arr [])], orderBy := JVal.obj [],
          take := 10, skip := 0 }
    ∧ (∃ l, (buildFilterQuery q spec).«where» = JVal.obj [("AND", JVal.arr l)])
    ∧ (q.orderKey = none → (buildFilterQuery q spec).orderBy = JVal.obj []) := by
  refine ⟨rfl, ⟨_, rfl⟩, fun h => ?_⟩
  simp only [buildFilterQuery, h]

/-- C10 witness: a request with filters but no order key. -/
theorem empty_request_defaults_witness :
    ({ filters := some [("a", JVal.num 1)] } : FilteringQuery).orderKey = none
    ∧ (buildFilterQuery { filters := some [("a", JVal.num 1)] } none).orderBy = JVal.obj [] :=
  ⟨rfl, (empty_request_defaults { filters := some [("a", JVal.num 1)] } none).2.2 rfl⟩

/-! ### Pagination -/

/-- `buildPagination` on data-model-conforming inputs (positive page and rows
where present): `take` is `rows` only when `page` is also set; without `page`
both stay at their defaults whatever `rows` is. -/
theorem buildPagination_eq (q : FilteringQuery)
    (hp : ∀ p, q.page = some p → 1 ≤ p) (hr : ∀ r, q.rows = some r → 1 ≤ r) :
    buildPagination q
      = (match q.page, q.rows with
         | some p, some r => (r, (p - 1) * r)
         | some p, none => ((10 : Int), 10 * (p - 1))
         | none, _ => ((10 : Int), (0 : Int))) := by
  unfold buildPagination
  cases hq : q.page with
  | none => cases q.rows <;> rfl
  | some p =>
    have hp0 : p ≠ 0 := by have := hp p hq; omega
    cases hq2 : q.rows with
    | none => simp [hp0]
    | some r =>
      have hr0 : r ≠ 0 := by have := hr r hq2; omega
      simp [hp0, hr0]

/-- C4 counterexample: `rows` set without `page` leaves `take` at 10, not at
`rows` — the request `(rows := 25)` builds with `take = 10`. -/
theorem take_rows_without_page_counterexample :
    (buildFilterQuery { rows := some 25 } none).take = 10 ∧ (10 : Int) ≠ 25 :=
  ⟨rfl, by decide⟩

/-- C4 (amended): for requests with positive `page`/`rows` where present,
`take = rows` exactly when both `page` and `rows` are set and `take = 10`
otherwise (in particular `rows` without `page` leaves `take` at 10); and
`skip = (page-1)*rows` when both are set, `10*(page-1)` when only `page` is
set, and `0` whenever `page` is unset, regardless of `rows`. -/
theorem pagination_take_skip (q : FilteringQuery) (spec : Option QuerySpecification)
    (hp : ∀ p, q.page = some p → 1 ≤ p) (hr : ∀ r, q.rows = some r → 1 ≤ r) :
    (buildFilterQuery q spec).take
      = (match q.page, q.rows with
         | some _, some r => r
         | _, _ => (10 : Int))
    ∧ (buildFilterQuery q spec).skip
      = (match q.page, q.rows with
         | some p, some r => (p - 1) * r
         | some p, none => 10 * (p - 1)
         | none, _ => (0 : Int)) := by
  have ht : (buildFilterQuery q spec).take = (buildPagination q).1 := rfl
  have hs : (buildFilterQuery q spec).skip = (buildPagination q).2 := rfl
  rw [ht, hs, buildPagination_eq q hp hr]
  cases q.page <;> cases q.rows <;> exact ⟨rfl, rfl⟩

/-- C4 witness: the claim's own examples, which the code does satisfy:
`page=2, rows=25` gives `take=25, skip=25`; `page=3` without `rows` gives
`take=10, skip=20`. -/
theorem pagination_take_skip_witness :
    (buildFilterQuery { page := some 2, rows := some 25 } none).take = 25
    ∧ (buildFilterQuery { page := some 2, rows := some 25 } none).skip = 25
    ∧ (buildFilterQuery { page := some 3 } none).take = 10
    ∧ (buildFilterQuery { page := some 3 } none).skip = 20 :=
  ⟨(pagination_take_skip { page := some 2, rows := some 25 } none
      (fun p h => by cases h; decide) (fun r h => by cases h; decide)).1,
   (pagination_take_skip { page := some 2, rows := some 25 } none
      (fun p h => by cases h; decide) (fun r h => by cases h; decide)).2.trans (by decide),
   (pagination_take_skip { page := some 3 } none
      (fun p h => by cases h; decide) (fun r h => by cases h)).1,
   (pagination_take_skip { page := some 3 } none
      (fun p h => by cases h; decide) (fun r h => by cases h)).2.trans (by decide)⟩

/-! ### Search filters (buildSearchQuery) -/

/-- Spec-side per-field search conditions: for each non-null entry, the path
folded around a `contains`/`mode` leaf, in entry order. -/
def searchMembersSpec (sf : List (String × JVal)) (m : SearchMode) : List JVal :=
  sf.filterMap (fun kv => match kv.2 with
    | JVal.null => none
    | v => some (specNest (splitDots kv.1) (searchLeaf v m)))

/-- One search condition equals the spec-side nesting of its path. -/
theorem searchCondition_eq_specNest (key : String) (v : JVal) (mode : SearchMode) :
    searchCondition key v mode = specNest (splitDots key) (searchLeaf v mode) := by
  cases h : hasDot key with
  | true =>
    rw [searchCondition, if_pos (by simp [h])]
    exact buildNestedSearch_eq_specNest key v mode
  | false =>
    rw [searchCondition, if_neg (by simp [h]), splitDots_of_no_dot key h]
    rfl

/-- The collected search loop conditions are exactly the spec-side members. -/
theorem searchConds_eq_members (sf : List (String × JVal)) (spec : Option QuerySpecification) :
    searchConds sf spec = searchMembersSpec sf (resolvedSearchMode spec) := by
  induction sf with
  | nil => rfl
  | cons kv rest ih =>
    obtain ⟨key, value⟩ := kv
    cases value <;>
      simp only [searchConds, searchMembersSpec, List.filterMap_cons, ih,
        searchCondition_eq_specNest]

/-- All-null search entries collect nothing. -/
theorem searchConds_all_null (l : List (String × JVal)) (spec : Option QuerySpecification)
    (h : ∀ kv ∈ l, kv.2 = JVal.null) : searchConds l spec = [] := by
  induction l with
  | nil => rfl
  | cons kv rest ih =>
    obtain ⟨key, value⟩ := kv
    have hv : value = JVal.null := h _ (List.mem_cons_self _ _)
    subst hv
    exact ih (fun x hx => h x (List.mem_cons_of_mem _ hx))

/-- The search loop distributes over concatenation of the entry list. -/
theorem searchConds_append (l1 l2 : List (String × JVal)) (spec : Option QuerySpecification) :
    searchConds (l1 ++ l2) spec = searchConds l1 spec ++ searchConds l2 spec := by
  induction l1 with
  | nil => rfl
  | cons kv rest ih =>
    obtain ⟨key, value⟩ := kv
    cases value with
    | null => exact ih
    | bool b => exact congrArg (List.cons _) ih
    | num n => exact congrArg (List.cons _) ih
    | str s => exact congrArg (List.cons _) ih
    | arr vs => exact congrArg (List.cons _) ih
    | obj fs => exact congrArg (List.cons _) ih

/-- With several keys and a nonempty collection, `buildSearchQuery` emits the
single OR-group of the collected conditions. -/
theorem buildSearchQuery_multi (sf : List (String × JVal)) (spec : Option QuerySpecification)
    (h1 : 1 < sf.length) (h2 : searchConds sf spec ≠ []) :
    buildSearchQuery sf spec = [JVal.obj [("OR", JVal.arr (searchConds sf spec))]] := by
  unfold buildSearchQuery
  rw [if_pos h1]
  cases hc : searchConds sf spec with
  | nil => exact absurd hc h2
  | cons a t => rfl

/-- With exactly one (non-null) key, `buildSearchQuery` emits the condition
directly, with no OR wrapper. -/
theorem buildSearchQuery_single (k : String) (v : JVal) (spec : Option QuerySpecification)
    (hv : v ≠ JVal.null) :
    buildSearchQuery [(k, v)] spec = [searchCondition k v (resolvedSearchMode spec)] := by
  unfold buildSearchQuery
  rw [if_neg (by simp)]
  cases v <;> first | exact absurd rfl hv | rfl

/-- A request carrying only search filters builds to the search conditions as
the whole AND list, with every other output at its default. -/
theorem buildFilterQuery_search_only (sf : List (String × JVal)) (spec : Option QuerySpecification) :
    buildFilterQuery { searchFilters := some sf } spec
      = { «where» := JVal.obj [("AND", JVal.arr (buildSearchQuery sf spec))],
          orderBy := JVal.obj [], take := 10, skip := 0 } := by
  simp [buildFilterQuery, buildPagination]

/-- C3: with more than one search field present the per-field conditions form
exactly one OR-group in the AND list (one member per non-null field, in
order); with exactly one search field the condition is appended directly with
no OR wrapper; each leaf is `contains`/`mode` with the mode taken from the
specification's `defaultSearchMode` when set and `insensitive` otherwise. -/
theorem multi_search_single_or_group (sf : List (String × JVal)) (spec : Option QuerySpecification) :
    (1 < sf.length → searchMembersSpec sf (resolvedSearchMode spec) ≠ [] →
      buildFilterQuery { searchFilters := some sf } spec
        = { «where» := JVal.obj [("AND", JVal.arr
              [JVal.obj [("OR", JVal.arr (searchMembersSpec sf (resolvedSearchMode spec)))]])],
            orderBy := JVal.obj [], take := 10, skip := 0 })
    ∧ (∀ k v, v ≠ JVal.null →
        buildFilterQuery { searchFilters := some [(k, v)] } spec
          = { «where» := JVal.obj [("AND", JVal.arr
                [specNest (splitDots k) (searchLeaf v (resolvedSearchMode spec))])],
              orderBy := JVal.obj [], take := 10, skip := 0 })
    ∧ (∀ s m, spec = some s → s.defaultSearchMode = some m → resolvedSearchMode spec = m)
    ∧ (spec.bind QuerySpecification.defaultSearchMode = none →
        resolvedSearchMode spec = SearchMode.insensitive) := by
  refine ⟨fun h1 h2 => ?_, fun k v hv => ?_, fun s m hs hm => ?_, fun h => ?_⟩
  · rw [buildFilterQuery_search_only,
      buildSearchQuery_multi sf spec h1 (by rw [searchConds_eq_members]; exact h2),
      searchConds_eq_members]
  · rw [buildFilterQuery_search_only, buildSearchQuery_single k v spec hv,
      searchCondition_eq_specNest]
  · subst hs
    simp [resolvedSearchMode, hm]
  · simp [resolvedSearchMode, h]

/-- C3 witness: two search fields collapse into one OR-group with insensitive
mode by default. -/
theorem multi_search_single_or_group_witness :
    (1 < ([("title", JVal.str "react"), ("bio", JVal.str "eng")] : List (String × JVal)).length)
    ∧ buildFilterQuery
        { searchFilters := some [("title", JVal.str "react"), ("bio", JVal.str "eng")] } none
      = { «where» := JVal.obj [("AND", JVal.arr
            [JVal.obj [("OR", JVal.arr
              [JVal.obj [("title",
                 JVal.obj [("contains", JVal.str "react"), ("mode", JVal.str "insensitive")])],
               JVal.obj [("bio",
                 JVal.obj [("contains", JVal.str "eng"), ("mode", JVal.str "insensitive")])]])]])],
          orderBy := JVal.obj [], take := 10, skip := 0 } :=
  ⟨by decide,
   ((multi_search_single_or_group
       [("title", JVal.str "react"), ("bio", JVal.str "eng")] none).1
     (by decide) (fun h => nomatch h)).trans rfl⟩

/-- C9: OR-wrapping of search conditions is decided by the total key count of
`searchFilters`, null-valued keys included — with two or more keys, a single
non-null entry still yields a one-element OR-group in the built AND list, and
all-null entries append nothing at all (no empty OR-group). -/
theorem search_wrap_counts_null_keys (sf : List (String × JVal)) (spec : Option QuerySpecification)
    (hlen : 1 < sf.length) :
    ((∀ kv ∈ sf, kv.2 = JVal.null) →
        buildSearchQuery sf spec = []
        ∧ buildFilterQuery { searchFilters := some sf } spec
          = { «where» := JVal.obj [("AND", JVal.arr [])], orderBy := JVal.obj [],
              take := 10, skip := 0 })
    ∧ (∀ pre k v post, sf = pre ++ (k, v) :: post → v ≠ JVal.null →
        (∀ kv ∈ pre, kv.2 = JVal.null) → (∀ kv ∈ post, kv.2 = JVal.null) →
        buildSearchQuery sf spec
          = [JVal.obj [("OR", JVal.arr [searchCondition k v (resolvedSearchMode spec)])]]
        ∧ buildFilterQuery { searchFilters := some sf } spec
          = { «where» := JVal.obj [("AND", JVal.arr
                [JVal.obj [("OR", JVal.arr [searchCondition k v (resolvedSearchMode spec)])]])],
              orderBy := JVal.obj [], take := 10, skip := 0 }) := by
  constructor
  · intro h
    have hb : buildSearchQuery sf spec = [] := by
      unfold buildSearchQuery
      rw [if_pos hlen, searchConds_all_null sf spec h]
      rfl
    refine ⟨hb, ?_⟩
    rw [buildFilterQuery_search_only, hb]
  · intro pre k v post hsf hv hpre hpost
    subst hsf
    have hone : searchConds ((k, v) :: post) spec
        = searchCondition k v (resolvedSearchMode spec) :: searchConds post spec := by
      cases v <;> first | exact absurd rfl hv | rfl
    have hc : searchConds (pre ++ (k, v) :: post) spec
        = [searchCondition k v (resolvedSearchMode spec)] := by
      rw [searchConds_append, searchConds_all_null pre spec hpre, hone,
        searchConds_all_null post spec hpost]
      rfl
    have hb : buildSearchQuery (pre ++ (k, v) :: post) spec
        = [JVal.obj [("OR", JVal.arr [searchCondition k v (resolvedSearchMode spec)])]] := by
      unfold buildSearchQuery
      rw [if_pos hlen, hc]
      rfl
    refine ⟨hb, ?_⟩
    rw [buildFilterQuery_search_only, hb]

/-- C9 witness: of two keys one is null — still OR-wrapped; two null keys —
nothing emitted. -/
theorem search_wrap_counts_null_keys_witness :
    buildSearchQuery [("a", JVal.str "x"), ("b", JVal.null)] none
      = [JVal.obj [("OR", JVal.arr
          [searchCondition "a" (JVal.str "x") (resolvedSearchMode none)])]]
    ∧ buildSearchQuery [("a", JVal.null), ("b", JVal.null)] none = [] :=
  ⟨((search_wrap_counts_null_keys [("a", JVal.str "x"), ("b", JVal.null)] none (by decide)).2
     [] "a" (JVal.str "x") [("b", JVal.null)] rfl (fun h => nomatch h)
     (fun kv h => absurd h (List.not_mem_nil kv))
     (by intro kv h; rw [List.mem_singleton] at h; subst h; rfl)).1,
   ((search_wrap_counts_null_keys [("a", JVal.null), ("b", JVal.null)] none (by decide)).1
     (by intro kv h
         rcases List.mem_cons.mp h with rfl | h2
         · rfl
         · rw [List.mem_singleton] at h2
           subst h2
           rfl)).1⟩

/-! ### Validator -/

/-- C5: calling the validator without a specification returns exactly
`isValid := true` with empty error and warning lists, regardless of the
request's content. -/
theorem validate_no_specification (q : FilteringQuery) :
    validateQuery q none = { isValid := true, errors := [], warnings := [] } := rfl

/-- Every error the relation scan emits is a `Relation ...` message. -/
theorem firstBadRelation_shape (ar : List String) (field : String) :
    ∀ segs e, e ∈ firstBadRelation ar field segs →
      ∃ seg, e = "Relation '" ++ seg ++ "' in field '" ++ field ++ "' is not allowed" := by
  intro segs
  induction segs with
  | nil => intro e h; cases h
  | cons s rest ih =>
    intro e h
    simp only [firstBadRelation] at h
    split at h
    · exact ih e h
    · rw [List.mem_singleton] at h
      exact ⟨s, h⟩

/-- Every error of `validateMultiLevelRelation` is a `Relation ...` message. -/
theorem validateMultiLevelRelation_shape (field : String) (spec : QuerySpecification) :
    ∀ e ∈ validateMultiLevelRelation field spec,
      ∃ seg, e = "Relation '" ++ seg ++ "' in field '" ++ field ++ "' is not allowed" := by
  intro e h
  unfold validateMultiLevelRelation at h
  cases har : spec.allowedRelations with
  | none => rw [har] at h; cases h
  | some ar => rw [har] at h; exact firstBadRelation_shape ar field _ e h

/-- Every relation error a field contributes is a `Relation ...` message. -/
theorem relationErrors_shape (field : String) (spec : QuerySpecification) :
    ∀ e ∈ relationErrors field spec,
      ∃ seg, e = "Relation '" ++ seg ++ "' in field '" ++ field ++ "' is not allowed" := by
  intro e h
  unfold relationErrors at h
  split at h
  · exact validateMultiLevelRelation_shape field spec e h
  · cases h

/-- A relation error is never the forbidden-field error: the two messages
differ already in their first character. -/
theorem relation_msg_ne_forbidden (seg field f : String) :
    ("Relation '" ++ seg ++ "' in field '" ++ field ++ "' is not allowed")
      ≠ ("Field '" ++ f ++ "' is forbidden") := by
  intro h
  have h2 := congrArg (fun s => s.data.head?) h
  simp only [String.data_append, List.cons_append, List.head?_cons] at h2
  exact absurd h2 (by decide)

/-- All errors of `validateSearchFilters` are relation errors. -/
theorem validateSearchFilters_errors_shape (l : List (String × JVal)) (spec : QuerySpecification) :
    ∀ e ∈ (validateSearchFilters l spec).1,
      ∃ seg fld, e = "Relation '" ++ seg ++ "' in field '" ++ fld ++ "' is not allowed" := by
  induction l with
  | nil => intro e h; cases h
  | cons kv rest ih =>
    obtain ⟨field, value⟩ := kv
    intro e h
    cases value with
    | null => exact ih e h
    | bool b =>
      rcases List.mem_append.mp h with h1 | h1
      · obtain ⟨seg, hseg⟩ := relationErrors_shape field spec e h1
        exact ⟨seg, field, hseg⟩
      · exact ih e h1
    | num n =>
      rcases List.mem_append.mp h with h1 | h1
      · obtain ⟨seg, hseg⟩ := relationErrors_shape field spec e h1
        exact ⟨seg, field, hseg⟩
      · exact ih e h1
    | str s =>
      rcases List.mem_append.mp h with h1 | h1
      · obtain ⟨seg, hseg⟩ := relationErrors_shape field spec e h1
        exact ⟨seg, field, hseg⟩
      · exact ih e h1
    | arr vs =>
      rcases List.mem_append.mp h with h1 | h1
      · obtain ⟨seg, hseg⟩ := relationErrors_shape field spec e h1
        exact ⟨seg, field, hseg⟩
      · exact ih e h1
    | obj fs =>
      rcases List.mem_append.mp h with h1 | h1
      · obtain ⟨seg, hseg⟩ := relationErrors_shape field spec e h1
        exact ⟨seg, field, hseg⟩
      · exact ih e h1

/-- C6: with `allowedFields` configured, a non-null filter field outside the
allow-list and inside `forbiddenFields` pushes the error
`Field '<path>' is forbidden` (and no warning from that check), while the same
field used in `searchFilters` pushes only the allow-list warning; search-field
violations can never produce the forbidden-field error. -/
theorem forbidden_filter_error_search_warning (spec : QuerySpecification) (af ff : List String)
    (f : String) (v : JVal) (rest rest' : List (String × JVal))
    (haf : spec.allowedFields = some af) (hmem : af.contains f = false)
    (hff : spec.forbiddenFields = some ff) (hforb : ff.contains f = true)
    (hv : v ≠ JVal.null) :
    validateFilters ((f, v) :: rest) spec
      = (("Field '" ++ f ++ "' is forbidden")
           :: (relationErrors f spec ++ (validateFilters rest spec).1),
         (validateFilters rest spec).2)
    ∧ validateSearchFilters ((f, v) :: rest') spec
      = (relationErrors f spec ++ (validateSearchFilters rest' spec).1,
         ("Search field '" ++ f ++ "' is not in allowed fields list")
           :: (validateSearchFilters rest' spec).2)
    ∧ ("Field '" ++ f ++ "' is forbidden") ∉ (validateSearchFilters ((f, v) :: rest') spec).1 := by
  have hnotin : f ∉ af := by simpa using hmem
  have hin : f ∈ ff := by simpa using hforb
  refine ⟨?_, ?_, ?_⟩
  · cases v with
    | null => exact absurd rfl hv
    | bool b => simp [validateFilters, haf, hff, hnotin, hin]
    | num n => simp [validateFilters, haf, hff, hnotin, hin]
    | str s => simp [validateFilters, haf, hff, hnotin, hin]
    | arr vs => simp [validateFilters, haf, hff, hnotin, hin]
    | obj fs => simp [validateFilters, haf, hff, hnotin, hin]
  · cases v with
    | null => exact absurd rfl hv
    | bool b => simp [validateSearchFilters, haf, hnotin]
    | num n => simp [validateSearchFilters, haf, hnotin]
    | str s => simp [validateSearchFilters, haf, hnotin]
    | arr vs => simp [validateSearchFilters, haf, hnotin]
    | obj fs => simp [validateSearchFilters, haf, hnotin]
  · intro hmem'
    obtain ⟨seg, fld, hshape⟩ := validateSearchFilters_errors_shape _ spec _ hmem'
    exact relation_msg_ne_forbidden seg fld f hshape.symm

/-- C6 witness: `secret`, forbidden and not allowed, as filter vs as search
filter. -/
theorem forbidden_filter_error_search_warning_witness :
    validateFilters [("secret", JVal.num 1)]
        { allowedFields := some ["title"], forbiddenFields := some ["secret"] }
      = (["Field 'secret' is forbidden"], [])
    ∧ validateSearchFilters [("secret", JVal.num 1)]
        { allowedFields := some ["title"], forbiddenFields := some ["secret"] }
      = ([], ["Search field 'secret' is not in allowed fields list"]) :=
  ⟨(forbidden_filter_error_search_warning
      { allowedFields := some ["title"], forbiddenFields := some ["secret"] }
      ["title"] ["secret"] "secret" (JVal.num 1) [] [] rfl (by decide) rfl (by decide)
      (fun h => JVal.noConfusion h)).1,
   (forbidden_filter_error_search_warning
      { allowedFields := some ["title"], forbiddenFields := some ["secret"] }
      ["title"] ["secret"] "secret" (JVal.num 1) [] [] rfl (by decide) rfl (by decide)
      (fun h => JVal.noConfusion h)).2.1⟩

/-- The relation scan stops at the first missing segment. -/
theorem firstBadRelation_first (ar : List String) (field : String) :
    ∀ pre bad post, (∀ s ∈ pre, ar.contains s = true) → ar.contains bad = false →
      firstBadRelation ar field (pre ++ bad :: post)
        = ["Relation '" ++ bad ++ "' in field '" ++ field ++ "' is not allowed"] := by
  intro pre
  induction pre with
  | nil =>
    intro bad post _ hbad
    have hnb : bad ∉ ar := by simpa using hbad
    simp [firstBadRelation, hnb]
  | cons s rest ih =>
    intro bad post hpre hbad
    simp only [List.cons_append, firstBadRelation]
    rw [if_pos (hpre s (List.mem_cons_self s rest))]
    exact ih bad post (fun x hx => hpre x (List.mem_cons_of_mem s hx)) hbad

/-- C7: with `allowedRelations` configured, a dotted path whose non-terminal
segments start with an allowed prefix followed by a first missing segment
yields exactly that one error, naming the first missing segment; later
segments of the same path are not reported. -/
theorem relation_first_violation_only (spec : QuerySpecification) (ar : List String)
    (field : String) (pre : List String) (bad : String) (post : List String)
    (har : spec.allowedRelations = some ar)
    (hsplit : (splitDots field).dropLast = pre ++ bad :: post)
    (hpre : ∀ s ∈ pre, ar.contains s = true)
    (hbad : ar.contains bad = false) :
    validateMultiLevelRelation field spec
      = ["Relation '" ++ bad ++ "' in field '" ++ field ++ "' is not allowed"] := by
  unfold validateMultiLevelRelation
  rw [har, hsplit]
  exact firstBadRelation_first ar field pre bad post hpre hbad

/-- C7 witness: `a.b.c` against `allowedRelations = (a)` reports only `b`. -/
theorem relation_first_violation_only_witness :
    validateMultiLevelRelation "a.b.c" { allowedRelations := some ["a"] }
      = ["Relation 'b' in field 'a.b.c' is not allowed"] :=
  relation_first_violation_only { allowedRelations := some ["a"] } ["a"] "a.b.c"
    ["a"] "b" [] rfl (by decide) (by decide) (by decide)

/-- Without an `allowedRelations` list no field contributes relation errors. -/
theorem relationErrors_none (f : String) (spec : QuerySpecification)
    (har : spec.allowedRelations = none) : relationErrors f spec = [] := by
  unfold relationErrors validateMultiLevelRelation
  rw [har]
  simp

/-- A query carrying one ranged filter, validated under a specification with
no field or relation policy, reports exactly the date-ordering diagnostics. -/
theorem validateQuery_ranged_only (r : RangedFilter) (spec : QuerySpecification)
    (har : spec.allowedRelations = none) (haf : spec.allowedFields = none) :
    validateQuery { rangedFilters := some [r] } (some spec)
      = { isValid := (rangeDateError r).isEmpty, errors := rangeDateError r, warnings := [] } := by
  have hrel := relationErrors_none r.key spec har
  simp [validateQuery, validateRangedFilters, validatePagination, hrel, haf]

/-- C8: under a specification with no field or relation policy, a single
ranged filter yields the start-after-end error exactly when both bounds are
strings matching the ISO-8601 UTC pattern and the parsed start is
chronologically after the parsed end; any other bounds produce no error and
no warning from this check. -/
theorem range_date_order_check (spec : QuerySpecification) (key : String) (b1 b2 : JVal)
    (har : spec.allowedRelations = none) (haf : spec.allowedFields = none) :
    validateQuery { rangedFilters := some [⟨key, b1, b2⟩] } (some spec)
      = match b1, b2 with
        | JVal.str a, JVal.str b =>
          if isIsoUtc a && isIsoUtc b && isoAfter a b then
            { isValid := false,
              errors := ["Range start date '" ++ a ++ "' is after end date '" ++ b ++ "'"],
              warnings := [] }
          else { isValid := true, errors := [], warnings := [] }
        | _, _ => { isValid := true, errors := [], warnings := [] } := by
  rw [validateQuery_ranged_only ⟨key, b1, b2⟩ spec har haf]
  cases b1 with
  | str a =>
    cases b2 with
    | str b =>
      simp only [rangeDateError]
      split
      · rfl
      · rfl
    | null => rfl
    | bool x => rfl
    | num x => rfl
    | arr x => rfl
    | obj x => rfl
  | null => rfl
  | bool x => rfl
  | num x => rfl
  | arr x => rfl
  | obj x => rfl

/-- C8 witness: the claim's examples — inverted ISO timestamps err, the same
inversion as plain numbers does not. -/
theorem range_date_order_check_witness :
    validateQuery { rangedFilters := some [⟨"createdAt",
        JVal.str "2023-12-31T00:00:00Z", JVal.str "2023-01-01T00:00:00Z"⟩] } (some {})
      = { isValid := false,
          errors :=
            ["Range start date '2023-12-31T00:00:00Z' is after end date '2023-01-01T00:00:00Z'"],
          warnings := [] }
    ∧ validateQuery { rangedFilters := some [⟨"count", JVal.num 100, JVal.num 1⟩] } (some {})
      = { isValid := true, errors := [], warnings := [] } :=
  ⟨(range_date_order_check {} "createdAt" (JVal.str "2023-12-31T00:00:00Z")
      (JVal.str "2023-01-01T00:00:00Z") rfl rfl).trans (by decide),
   (range_date_order_check {} "count" (JVal.num 100) (JVal.num 1) rfl rfl).trans rfl⟩
